import Mathlib

/-!
Verification of the SonicSeeker transcription API route (`POST` handler).

The development shallowly embeds the route handler: the Next.js `POST`
function that accepts a media-file upload, writes it to a temp workspace,
locates a Python runtime, builds a shell command invoking the whisper
worker script, runs it under a timeout and output bound, reads back the
JSON artifact, and cleans up temp files in a `finally` block.

Conventions of the embedding:
* JavaScript strings are Lean `String`s; JS falsiness of a string is
  `s = ""`; `a || b` on strings is `jsOr`.
* The filesystem is an association list from paths to contents, threaded
  explicitly through the handler.
* Platform effects (the `child_process.exec` runner, `JSON.parse`, the
  probe used by the Python locator, fallible `writeFile`/`readFile`/
  `unlink`) are supplied by an `Env` record of oracles; the handler's
  control flow, strings, and data flow are translated from the source.
* Observable side effects (console logging, file writes, the spawned
  engine subprocess, unlink attempts) are recorded in an event trace.
-/

/-- JavaScript `a || b` for strings: the empty string is falsy. -/
def jsOr (a b : String) : String := if a = "" then b else a

/-- JavaScript truthiness of a possibly-absent string (`undefined` and `""` are falsy). -/
def jsTruthy : Option String → Bool
  | none => false
  | some s => !(s == "")

/-- JavaScript `a ?? b` (nullish coalescing): only absence selects the default. -/
def jsNullish (a : Option String) (b : String) : String :=
  match a with
  | some s => s
  | none => b

/-- Replace the first occurrence of `pat` in a character list (JS `String.replace`
with a string pattern replaces only the first match). -/
def replaceFirstL (s pat rep : List Char) : List Char :=
  match s with
  | [] => []
  | c :: cs =>
    if pat.isPrefixOf (c :: cs) then rep ++ (c :: cs).drop pat.length
    else c :: replaceFirstL cs pat rep

/-- JavaScript `s.replace(pat, rep)` with a string pattern: first occurrence only;
an empty pattern matches at position 0 and prepends the replacement. -/
def replaceFirst (s pat rep : String) : String :=
  if pat = "" then rep ++ s else ⟨replaceFirstL s.data pat.data rep.data⟩

/-- POSIX `path.join` of two segments as used by the route (no normalization is
needed for the segments the route joins). -/
def pathJoin (a b : String) : String := a ++ "/" ++ b

/-- Characters of the last path segment (Node `path.basename` without a suffix
argument): everything after the last `/`. -/
def baseChars (l : List Char) : List Char :=
  (l.reverse.takeWhile (fun c => !(c == '/'))).reverse

/-- Characters strictly after the last `.` of a list. -/
def afterLastDot (l : List Char) : List Char :=
  (l.reverse.takeWhile (fun c => !(c == '.'))).reverse

/-- Characters strictly before the last `.` of a list (everything, if no dot). -/
def beforeLastDot (l : List Char) : List Char :=
  ((l.reverse.dropWhile (fun c => !(c == '.'))).drop 1).reverse

/-- Node `path.extname` on a single path segment: the suffix from the last `.`,
empty when there is no dot or when the last dot is the segment's first
character (dotfiles have no extension). -/
def extChars (l : List Char) : List Char :=
  if '.' ∈ l then
    if (beforeLastDot l).isEmpty then [] else '.' :: afterLastDot l
  else []

/-- Strip `sfx` from the end of `l` when it is a proper, nonempty suffix
(Node `path.basename(p, ext)` does not strip an `ext` equal to the whole
basename). -/
def stripSfx (l sfx : List Char) : List Char :=
  if !sfx.isEmpty && !(sfx == l) && sfx.isSuffixOf l then
    l.take (l.length - sfx.length)
  else l

/-- Node `path.extname` on a full path. -/
def nodeExtname (p : String) : String := ⟨extChars (baseChars p.data)⟩

/-- Node `path.basename(p, suffix)`. -/
def nodeBasename (p sfx : String) : String := ⟨stripSfx (baseChars p.data) sfx.data⟩

/-- The per-job upload workspace, `path.join(os.tmpdir(), 'whisper-uploads')`. -/
def whisperTempDir (tmpdir : String) : String := pathJoin tmpdir "whisper-uploads"

/-- The input artifact path, `path.join(tempDir, Date.now() + '-' + mediaFile.name)`. -/
def mkTempFilePath (tmpdir : String) (now : Nat) (name : String) : String :=
  pathJoin (whisperTempDir tmpdir) (Nat.repr now ++ "-" ++ name)

/-- The output artifact path,
`path.join(tempDir, path.basename(tempFilePath, path.extname(tempFilePath)) + '.json')`. -/
def mkOutputJsonPath (tmpdir : String) (now : Nat) (name : String) : String :=
  pathJoin (whisperTempDir tmpdir)
    (nodeBasename (mkTempFilePath tmpdir now name)
        (nodeExtname (mkTempFilePath tmpdir now name)) ++ ".json")

/-- The fixed worker script path, `path.join(process.cwd(), 'src', 'whisper', 'transcribe.py')`. -/
def scriptPath (cwd : String) : String :=
  pathJoin (pathJoin (pathJoin cwd "src") "whisper") "transcribe.py"

/-- Wrap an argument in double quotes, as the route does for every path. -/
def quoteArg (s : String) : String := "\"" ++ s ++ "\""

/-- The `commandParts` array built by the route: quoted runtime, quoted script,
`--input`/`--output-json` with quoted paths, then `--diarize` when requested and
`--hf-token` with the quoted token when one is (truthily) present. -/
def commandParts (python script input output : String) (diarize : Bool)
    (tok : Option String) : List String :=
  [quoteArg python, quoteArg script,
   "--input " ++ quoteArg input, "--output-json " ++ quoteArg output]
  ++ (if diarize then
        ["--diarize"] ++
          (if jsTruthy tok then ["--hf-token " ++ quoteArg (jsNullish tok "")] else [])
      else [])

/-- The command string, `commandParts.join(' ')`. -/
def mkCommand (python script input output : String) (diarize : Bool)
    (tok : Option String) : String :=
  String.intercalate " " (commandParts python script input output diarize tok)

/-- Modelled from the spec: interpretation of a command string under shell
quoting rules (spec 4.3 requires that quoted paths survive word splitting).
Simplified POSIX field splitting with double quotes: a `"` toggles quoting
without terminating the current word, an unquoted space separates words, and a
word is emitted even when empty if it was quoted. -/
def shellSplitL : List Char → Bool → List Char → Bool → List (List Char)
  | [], _, acc, seen => if acc.isEmpty && !seen then [] else [acc.reverse]
  | c :: cs, inQ, acc, seen =>
    if c == '"' then shellSplitL cs (!inQ) acc true
    else if c == ' ' && !inQ then
      if acc.isEmpty && !seen then shellSplitL cs false [] false
      else acc.reverse :: shellSplitL cs false [] false
    else shellSplitL cs inQ (c :: acc) seen

/-- Shell word splitting of a command string. -/
def shellSplit (s : String) : List String :=
  (shellSplitL s.data false [] false).map (fun l => ⟨l⟩)

/-- Options passed to `execPromise` (wall-clock timeout in milliseconds and
maximum captured-stream size in bytes). -/
structure ExecOpts where
  timeout : Nat
  maxBuffer : Nat
deriving Repr, DecidableEq

/-- The options literal of the route: `{ timeout: 600000, maxBuffer: 10 * 1024 * 1024 }`. -/
def execOptions : ExecOpts := ⟨600000, 10 * 1024 * 1024⟩

/-- Behavior of the spawned engine subprocess: how long it would run, its exit
code, and what it writes to each captured stream. -/
structure ChildBehavior where
  duration : Nat
  exitCode : Nat
  stdout : String
  stderr : String
deriving Repr, DecidableEq

/-- The error value `execPromise` rejects with: captured streams, the `message`
(which for a failed command embeds the full command line,
`"Command failed: " + command`), and the kill/exit classification. -/
structure ExecErr where
  stdout : String
  stderr : String
  message : String
  killed : Bool
  code : Option Nat
  signal : Option String
deriving Repr, DecidableEq

/-- Outcome of awaiting `execPromise`. -/
inductive ExecResult where
  | ok (stdout stderr : String)
  | err (e : ExecErr)
deriving Repr, DecidableEq

/-- Modelled from the spec: the ProcessRunner semantics (Node
`child_process.exec` with `timeout` and `maxBuffer`, spec 4.4). Exceeding the
wall-clock timeout forcibly terminates the child (`killed = true`, SIGTERM) and
rejects; a captured stream over `maxBuffer` rejects; a nonzero exit rejects
with the exit code and `killed = false`; otherwise the promise resolves with
the captured streams. A rejected command's `message` embeds the command line. -/
def runExec (o : ExecOpts) (b : ChildBehavior) (cmd : String) : ExecResult :=
  if o.timeout < b.duration then
    .err ⟨b.stdout, b.stderr, "Command failed: " ++ cmd, true, none, some "SIGTERM"⟩
  else if o.maxBuffer < b.stdout.length then
    .err ⟨b.stdout, b.stderr, "stdout maxBuffer length exceeded", true, none, none⟩
  else if o.maxBuffer < b.stderr.length then
    .err ⟨b.stdout, b.stderr, "stderr maxBuffer length exceeded", true, none, none⟩
  else if b.exitCode = 0 then .ok b.stdout b.stderr
  else .err ⟨b.stdout, b.stderr, "Command failed: " ++ cmd, false, some b.exitCode, none⟩

/-- The filesystem visible to the handler: newest-first association list from
paths to file contents. -/
abbrev FS := List (String × String)

/-- The `fs.existsSync` check. -/
def fsExists (fs : FS) (p : String) : Bool := fs.any (fun e => e.1 == p)

/-- Effect of `writeFile`: the path now maps to the new content. -/
def fsWrite (fs : FS) (p c : String) : FS :=
  (p, c) :: fs.filter (fun e => !(e.1 == p))

/-- The `readFile` lookup. -/
def fsRead (fs : FS) (p : String) : Option String :=
  (fs.find? (fun e => e.1 == p)).map (fun e => e.2)

/-- Effect of `unlink`. -/
def fsRemove (fs : FS) (p : String) : FS := fs.filter (fun e => !(e.1 == p))

/-- The uploaded form-data file part: original filename and payload bytes. -/
structure MediaFile where
  name : String
  content : String
deriving Repr, DecidableEq

/-- The candidate runtimes probed on a POSIX host (the win32 arm of the source
is an analogous list of platform-specific constant paths and is elided by
fixing `process.platform` to non-win32). -/
def pythonCandidates : List String := ["python3", "python"]

/-- The Python locator: the first candidate whose `--version` probe succeeds. -/
def findPythonExecutable (probe : String → Bool) : Option String :=
  pythonCandidates.find? probe

/-- Observable actions of one request: console lines, the input-artifact write,
the spawned engine subprocess (with its limits), and unlink attempts. -/
inductive Ev where
  | log (s : String)
  | writeFile (p : String)
  | execCmd (cmd : String) (timeout maxBuffer : Nat)
  | unlink (p : String)
deriving Repr, DecidableEq

/-- The JSON body and status the handler responds with. `transcription` holds
the `JSON.parse`d document (parsed documents are represented by the opaque
payload handed back by the `parseJson` oracle). -/
structure Resp where
  status : Nat
  error : Option String
  details : Option String
  transcription : Option String
deriving Repr, DecidableEq

/-- Environment of one request: the form data, the process environment and
working directory, the clock, and the oracles for every platform effect. -/
structure Env where
  formDataOk : Bool
  mediaFile : Option MediaFile
  diarizeField : Option String
  hfToken : Option String
  tmpdir : String
  cwd : String
  nowTs : Nat
  tempDirExists : Bool
  mkdirOk : Bool
  writeOk : Bool
  probe : String → Bool
  scriptExists : Bool
  child : ChildBehavior
  childOutput : Option String
  readFails : Bool
  readPartialFails : Bool
  parseJson : String → Option String

/-- Result of the `try`/`catch` body (before the `finally` block): response,
event trace, filesystem, and the `tempFilePath`/`outputJsonPath` variables the
cleanup code will look at. -/
structure CoreOut where
  resp : Resp
  evs : List Ev
  fs : FS
  tmpPath : Option String
  outPath : Option String

/-- Response of the outer `catch (error)` arm: HTTP 500 with the thrown
error's message as `details`. -/
def catchResp (msg : String) : Resp :=
  ⟨500, some "An unexpected error occurred.", some msg, none⟩

/-- Events logged before the engine subprocess is spawned, on the path that
reaches `execPromise`: the optional missing-token warnings, the saved-file and
found-Python lines, and the `Executing command` line with the token's first
occurrence masked. -/
def preEvs (env : Env) (py tf cmd : String) : List Ev :=
  (if (env.diarizeField == some "true") && !(jsTruthy env.hfToken) then
      [Ev.log "Diarization requested, but HUGGING_FACE_TOKEN environment variable is not set."]
    else [])
  ++ [Ev.writeFile tf, Ev.log ("Temporary file saved to: " ++ tf),
      Ev.log ("Found Python at: " ++ py)]
  ++ (if (env.diarizeField == some "true") && !(jsTruthy env.hfToken) then
        [Ev.log "Proceeding with diarization request but without HF token."]
      else [])
  ++ [Ev.log ("Executing command: " ++
        replaceFirst cmd (jsNullish env.hfToken "dummy-token") "[HF_TOKEN_HIDDEN]"),
      Ev.execCmd cmd execOptions.timeout execOptions.maxBuffer]

/-- The filesystem after the engine subprocess ran: whatever the child wrote
to the output artifact path (possibly partial output), if anything. -/
def childFs (env : Env) (outputJsonPath : String) (fs : FS) : FS :=
  match env.childOutput with
  | some s => fsWrite fs outputJsonPath s
  | none => fs

/-- The inner `try` around `execPromise` (source lines 119-155): run the
command, then either check/read/parse the output artifact on success, or build
the failure `details` (captured streams or the error message, plus best-effort
recovered partial output) in the inner `catch`. -/
def execPhase (env : Env) (outputJsonPath command : String) (fs : FS) :
    Resp × List Ev × FS :=
  let fs2 := childFs env outputJsonPath fs
  match runExec execOptions env.child command with
  | .ok stdout stderr =>
    let evs1 := (if stderr = "" then [] else [Ev.log ("Python script stderr: " ++ stderr)])
        ++ [Ev.log ("Python script stdout: " ++ stdout)]
    if fsExists fs2 outputJsonPath then
      if env.readFails then
        (catchResp "readFile failed",
         evs1 ++ [Ev.log "API Error: readFile failed"], fs2)
      else
        let content := (fsRead fs2 outputJsonPath).getD ""
        match env.parseJson content with
        | some v => (⟨200, none, none, some v⟩, evs1, fs2)
        | none =>
          (catchResp "Unexpected token in JSON",
           evs1 ++ [Ev.log "API Error: Unexpected token in JSON"], fs2)
    else
      (⟨500, some "Transcription failed: Output file not generated.",
        some (jsOr stderr stdout), none⟩,
       evs1 ++ [Ev.log "Output JSON file was not created by the script.",
                Ev.log ("Script stderr: " ++ stderr)], fs2)
  | .err e =>
    let base := jsOr e.stderr (jsOr e.stdout (jsOr e.message "Unknown execution error"))
    let details :=
      if fsExists fs2 outputJsonPath then
        if env.readPartialFails then base
        else base ++ "\nPartial output: " ++ (fsRead fs2 outputJsonPath).getD ""
      else base
    (⟨500, some "Failed to execute transcription script.", some details, none⟩,
     [Ev.log ("Error executing Python script: " ++ e.message)], fs2)

/-- The `try`/`catch` body of the handler (source lines 52-159): form-data
extraction, missing-file 400, token lookup and warning, workspace creation,
input-artifact write, Python location, script-existence check, command
construction, and the exec phase; thrown platform errors land in the outer
`catch` as `catchResp`. -/
def POSTcore (env : Env) (fs : FS) : CoreOut :=
  if env.formDataOk then
    match env.mediaFile with
    | none => ⟨⟨400, some "No media file uploaded", none, none⟩, [], fs, none, none⟩
    | some mf =>
      let warnEvs : List Ev :=
        if (env.diarizeField == some "true") && !(jsTruthy env.hfToken) then
          [Ev.log "Diarization requested, but HUGGING_FACE_TOKEN environment variable is not set."]
        else []
      if env.tempDirExists || env.mkdirOk then
        let tf := mkTempFilePath env.tmpdir env.nowTs mf.name
        if env.writeOk then
          let fs1 := fsWrite fs tf mf.content
          let oj := mkOutputJsonPath env.tmpdir env.nowTs mf.name
          match findPythonExecutable env.probe with
          | none =>
            ⟨catchResp "Python executable not found.",
             warnEvs ++ [Ev.writeFile tf, Ev.log ("Temporary file saved to: " ++ tf),
                         Ev.log "Could not find Python executable.",
                         Ev.log "API Error: Python executable not found."],
             fs1, some tf, some oj⟩
          | some py =>
            if env.scriptExists then
              let cmd := mkCommand py (scriptPath env.cwd) tf oj
                  (env.diarizeField == some "true") env.hfToken
              let r := execPhase env oj cmd fs1
              ⟨r.1, preEvs env py tf cmd ++ r.2.1, r.2.2, some tf, some oj⟩
            else
              ⟨⟨500, some "Transcription script not found on server", none, none⟩,
               warnEvs ++ [Ev.writeFile tf, Ev.log ("Temporary file saved to: " ++ tf),
                           Ev.log ("Found Python at: " ++ py),
                           Ev.log ("Transcription script not found at: " ++ scriptPath env.cwd)],
               fs1, some tf, some oj⟩
        else
          ⟨catchResp "writeFile failed", warnEvs ++ [Ev.log "API Error: writeFile failed"],
           fs, some tf, none⟩
      else
        ⟨catchResp "mkdir failed", warnEvs ++ [Ev.log "API Error: mkdir failed"],
         fs, none, none⟩
  else
    ⟨catchResp "request.formData failed", [Ev.log "API Error: request.formData failed"],
     fs, none, none⟩

/-- One arm of the `finally` block: if the tracked path is set and the file
still exists, attempt `unlink`; a failing unlink leaves the file and only
logs (it is caught and never rethrown). -/
def cleanupStep (p? : Option String) (unlinkFails : Bool) (tag : String) (fs : FS) :
    List Ev × FS :=
  match p? with
  | none => ([], fs)
  | some p =>
    if fsExists fs p then
      if unlinkFails then
        ([Ev.unlink p, Ev.log ("Error cleaning up temporary " ++ tag ++ " file " ++ p)], fs)
      else
        ([Ev.unlink p, Ev.log ("Cleaned up temporary " ++ tag ++ " file: " ++ p)],
         fsRemove fs p)
    else ([], fs)

/-- Final outcome of one request: response, full event trace, final filesystem. -/
structure Out where
  resp : Resp
  evs : List Ev
  fs : FS

/-- The whole `POST` handler: the `try`/`catch` body followed by the `finally`
cleanup of the input artifact and then the output artifact. `uIn`/`uOut` say
whether the respective `unlink` call fails. -/
def POST (env : Env) (uIn uOut : Bool) (fs0 : FS) : Out :=
  let c := POSTcore env fs0
  let s1 := cleanupStep c.tmpPath uIn "input" c.fs
  let s2 := cleanupStep c.outPath uOut "output" s1.2
  ⟨c.resp, c.evs ++ s1.1 ++ s2.1, s2.2⟩

/-- Substring test: does `pat` occur contiguously inside `s`. -/
def containsTok (s pat : List Char) : Bool :=
  match s with
  | [] => pat.isEmpty
  | c :: cs => pat.isPrefixOf (c :: cs) || containsTok cs pat

/-- Every decimal digit character is a digit. -/
lemma digitChar_isDigit : ∀ m, m < 10 → (Nat.digitChar m).isDigit = true := by decide

/-- Characters produced by `Nat.toDigitsCore` in base 10 over a digit-only
accumulator are digits. -/
lemma toDigitsCore_all_digit :
    ∀ (f n : Nat) (ds : List Char), (∀ c ∈ ds, c.isDigit = true) →
      ∀ c ∈ Nat.toDigitsCore 10 f n ds, c.isDigit = true := by
  intro f
  induction f with
  | zero => intro n ds h; simpa [Nat.toDigitsCore] using h
  | succ f ih =>
    intro n ds h
    have hd : (Nat.digitChar (n % 10)).isDigit = true :=
      digitChar_isDigit _ (Nat.mod_lt _ (by decide))
    have h' : ∀ c ∈ (Nat.digitChar (n % 10) :: ds), c.isDigit = true := by
      intro c hc
      rcases List.mem_cons.mp hc with h1 | h2
      · simpa [h1] using hd
      · exact h c h2
    simp only [Nat.toDigitsCore]
    by_cases h0 : n / 10 = 0
    · simpa [h0] using h'
    · simpa [h0] using ih (n / 10) (Nat.digitChar (n % 10) :: ds) h'

/-- The decimal rendering of a natural number consists of digit characters. -/
lemma repr_data_all_digit (n : Nat) : ∀ c ∈ (Nat.repr n).data, c.isDigit = true := by
  intro c hc
  have hrepr : (Nat.repr n).data = Nat.toDigitsCore 10 (n + 1) n [] := rfl
  rw [hrepr] at hc
  exact toDigitsCore_all_digit (n + 1) n [] (by intro c h; cases h) c hc

/-- The `Nat.toDigitsCore` result extends its accumulator. -/
lemma toDigitsCore_append :
    ∀ (f m : Nat) (ds : List Char), ∃ pre, Nat.toDigitsCore 10 f m ds = pre ++ ds := by
  intro f
  induction f with
  | zero => intro m ds; exact ⟨[], by simp [Nat.toDigitsCore]⟩
  | succ f ih =>
    intro m ds
    simp only [Nat.toDigitsCore]
    by_cases h0 : m / 10 = 0
    · exact ⟨[Nat.digitChar (m % 10)], by simp [h0]⟩
    · obtain ⟨pre, hp⟩ := ih (m / 10) (Nat.digitChar (m % 10) :: ds)
      refine ⟨pre ++ [Nat.digitChar (m % 10)], ?_⟩
      simp [h0, hp]

/-- The decimal rendering of a natural number is nonempty. -/
lemma repr_data_ne_nil (n : Nat) : (Nat.repr n).data ≠ [] := by
  have hrepr : (Nat.repr n).data = Nat.toDigitsCore 10 (n + 1) n [] := rfl
  rw [hrepr]
  simp only [Nat.toDigitsCore]
  by_cases h0 : n / 10 = 0
  · simp [h0]
  · obtain ⟨pre, hp⟩ := toDigitsCore_append n (n / 10) [Nat.digitChar (n % 10)]
    simp [h0, hp]

/-- A digit character is not a dash, a dot, or a slash. -/
lemma digit_ne_specials {c : Char} (h : c.isDigit = true) :
    ¬ c = '-' ∧ ¬ c = '.' ∧ ¬ c = '/' := by
  refine ⟨?_, ?_, ?_⟩ <;> rintro rfl <;> exact absurd h (by decide)

/-- No dash among the digits of a rendered timestamp. -/
lemma repr_no_dash (n : Nat) : '-' ∉ (Nat.repr n).data := by
  intro h
  exact (digit_ne_specials (repr_data_all_digit n '-' h)).1 rfl

/-- No dot among the digits of a rendered timestamp. -/
lemma repr_no_dot (n : Nat) : '.' ∉ (Nat.repr n).data := by
  intro h
  exact (digit_ne_specials (repr_data_all_digit n '.' h)).2.1 rfl

/-- No slash among the digits of a rendered timestamp. -/
lemma repr_no_slash (n : Nat) : '/' ∉ (Nat.repr n).data := by
  intro h
  exact (digit_ne_specials (repr_data_all_digit n '/' h)).2.2 rfl

/-- Splitting at a separator absent from both left parts is injective. -/
lemma append_sep_inj {sep : Char} :
    ∀ (a b x y : List Char), sep ∉ a → sep ∉ b →
      a ++ sep :: x = b ++ sep :: y → a = b ∧ x = y := by
  intro a
  induction a with
  | nil =>
    intro b x y _ hb h
    cases b with
    | nil => simpa using h
    | cons c cs =>
      simp only [List.nil_append, List.cons_append, List.cons.injEq] at h
      exact absurd (by simp [h.1]) hb
  | cons c cs ih =>
    intro b x y ha hb h
    cases b with
    | nil =>
      simp only [List.cons_append, List.nil_append, List.cons.injEq] at h
      exact absurd (by simp [h.1]) ha
    | cons d ds =>
      simp only [List.cons_append, List.cons.injEq] at h
      obtain ⟨h1, h2⟩ := h
      have ha' : sep ∉ cs := fun hm => ha (List.mem_cons_of_mem _ hm)
      have hb' : sep ∉ ds := fun hm => hb (List.mem_cons_of_mem _ hm)
      obtain ⟨hab, hxy⟩ := ih ds x y ha' hb' h2
      exact ⟨by rw [h1, hab], hxy⟩

/-- The `takeWhile` of an append whose left part wholly satisfies the predicate. -/
lemma takeWhile_append_of_all {p : Char → Bool} {x y : List Char}
    (hx : ∀ c ∈ x, p c = true) : (x ++ y).takeWhile p = x ++ y.takeWhile p := by
  rw [List.takeWhile_append]
  have hself : x.takeWhile p = x := List.takeWhile_eq_self_iff.mpr hx
  simp [hself]

/-- The `dropWhile` of an append whose left part contains a failing element. -/
lemma dropWhile_append_of_mem {p : Char → Bool} {x y : List Char} {c : Char}
    (hc : c ∈ x) (hpc : p c = false) : (x ++ y).dropWhile p = x.dropWhile p ++ y := by
  rw [List.dropWhile_append]
  have hne : x.dropWhile p ≠ [] := by
    intro hnil
    have := List.dropWhile_eq_nil_iff.mp hnil c hc
    rw [this] at hpc
    cases hpc
  simp [List.isEmpty_iff, hne]

/-- Dropping up to the last dot leaves a dot-headed remainder. -/
lemma dropWhile_dot_cons :
    ∀ (l : List Char), '.' ∈ l →
      ∃ t, l.dropWhile (fun c => !(c == '.')) = '.' :: t := by
  intro l
  induction l with
  | nil => intro h; cases h
  | cons c cs ih =>
    intro h
    by_cases hc : c = '.'
    · subst hc
      exact ⟨cs, by simp [List.dropWhile_cons]⟩
    · have hmem : '.' ∈ cs := by
        rcases List.mem_cons.mp h with h1 | h1
        · exact absurd h1.symm hc
        · exact h1
      obtain ⟨t, ht⟩ := ih hmem
      have hbeq : (c == '.') = false := beq_eq_false_iff_ne.mpr hc
      exact ⟨t, by simp [List.dropWhile_cons, hbeq, ht]⟩

/-- A list containing a dot splits as its before-last-dot part, the dot, and
its after-last-dot part. -/
lemma dot_decomp {l : List Char} (h : '.' ∈ l) :
    l = beforeLastDot l ++ '.' :: afterLastDot l := by
  obtain ⟨t, ht⟩ := dropWhile_dot_cons l.reverse (List.mem_reverse.mpr h)
  have hsplit := List.takeWhile_append_dropWhile (fun c => !(c == '.')) l.reverse
  rw [ht] at hsplit
  have hb : beforeLastDot l = t.reverse := by simp [beforeLastDot, ht]
  have ha : afterLastDot l = (l.reverse.takeWhile (fun c => !(c == '.'))).reverse := rfl
  rw [hb, ha]
  conv_lhs => rw [← List.reverse_reverse l, ← hsplit]
  simp

/-- Prepending a dot-free prefix and a dash shifts `beforeLastDot` by that prefix. -/
lemma beforeLastDot_append {tsd nd : List Char} (h : '.' ∈ nd) :
    beforeLastDot (tsd ++ '-' :: nd) = tsd ++ '-' :: beforeLastDot nd := by
  have hrev : (tsd ++ '-' :: nd).reverse = nd.reverse ++ '-' :: tsd.reverse := by
    simp
  have hdrop : (nd.reverse ++ '-' :: tsd.reverse).dropWhile (fun c => !(c == '.'))
      = nd.reverse.dropWhile (fun c => !(c == '.')) ++ '-' :: tsd.reverse :=
    dropWhile_append_of_mem (List.mem_reverse.mpr h) (by simp)
  obtain ⟨t, ht⟩ := dropWhile_dot_cons nd.reverse (List.mem_reverse.mpr h)
  simp only [beforeLastDot, hrev, hdrop, ht]
  simp

/-- Prepending a prefix and a dash does not change `afterLastDot` when the
right part contains a dot. -/
lemma afterLastDot_append {tsd nd : List Char} (h : '.' ∈ nd) :
    afterLastDot (tsd ++ '-' :: nd) = afterLastDot nd := by
  have hrev : (tsd ++ '-' :: nd).reverse = nd.reverse ++ '-' :: tsd.reverse := by
    simp
  have htw : (nd.reverse ++ '-' :: tsd.reverse).takeWhile (fun c => !(c == '.'))
      = nd.reverse.takeWhile (fun c => !(c == '.')) := by
    rw [List.takeWhile_append]
    have hne : nd.reverse.takeWhile (fun c => !(c == '.')) ≠ nd.reverse := by
      intro heq
      have := List.takeWhile_eq_self_iff.mp heq '.' (List.mem_reverse.mpr h)
      simp at this
    have hlen : ¬ (nd.reverse.takeWhile (fun c => !(c == '.'))).length = nd.length := by
      intro hl
      exact hne ((List.takeWhile_prefix _).eq_of_length (by simpa using hl))
    simp [hlen]
  simp only [afterLastDot, hrev, htw]

/-- The basename of a joined path whose last segment is slash-free. -/
lemma baseChars_append {d comb : List Char} (h : ∀ c ∈ comb, ¬ c = '/') :
    baseChars (d ++ '/' :: comb) = comb := by
  have hrev : (d ++ '/' :: comb).reverse = comb.reverse ++ '/' :: d.reverse := by
    simp
  have hall : ∀ c ∈ comb.reverse, (fun c => !(c == '/')) c = true := by
    intro c hc
    simp [beq_eq_false_iff_ne.mpr (h c (List.mem_reverse.mp hc))]
  rw [baseChars, hrev, takeWhile_append_of_all hall]
  simp [List.takeWhile_cons]

/-- Character-level shape of the input artifact path. -/
lemma mkTempFilePath_data (tmp : String) (ts : Nat) (n : String) :
    (mkTempFilePath tmp ts n).data
      = (whisperTempDir tmp).data ++ '/' :: ((Nat.repr ts).data ++ '-' :: n.data) := by
  show ((whisperTempDir tmp) ++ "/" ++ (Nat.repr ts ++ "-" ++ n)).data = _
  simp only [String.data_append]
  simp [show ("/" : String).data = ['/'] from rfl, show ("-" : String).data = ['-'] from rfl]

/-- The filename's extension-stripped stem as the naming scheme uses it:
everything before the last dot, or the whole name when it contains none (a
leading dot of the uploaded filename sits after the timestamp and dash inside
the artifact basename, so it does start an extension there). -/
def stemOfName (n : List Char) : List Char :=
  if '.' ∈ n then beforeLastDot n else n

/-- Character-level shape of the output artifact path for a slash-free
uploaded filename: the workspace directory, the rendered timestamp, a dash,
the extension-stripped stem of the filename, and `.json`. -/
lemma mkOutputJsonPath_data (tmp : String) (ts : Nat) (n : String)
    (hn : ∀ c ∈ n.data, ¬ c = '/') :
    (mkOutputJsonPath tmp ts n).data
      = (whisperTempDir tmp).data ++ '/' ::
          ((Nat.repr ts).data ++ '-' :: (stemOfName n.data ++ ".json".data)) := by
  have hslash : ∀ c ∈ (Nat.repr ts).data ++ '-' :: n.data, ¬ c = '/' := by
    intro c hc
    rcases List.mem_append.mp hc with h1 | h1
    · exact (digit_ne_specials (repr_data_all_digit ts c h1)).2.2
    · rcases List.mem_cons.mp h1 with h2 | h2
      · subst h2; decide
      · exact hn c h2
  have hbase : baseChars (mkTempFilePath tmp ts n).data
      = (Nat.repr ts).data ++ '-' :: n.data := by
    rw [mkTempFilePath_data]
    exact baseChars_append hslash
  by_cases hdot : '.' ∈ n.data
  · -- the filename has an extension, which the output path replaces by .json
    have hdotc : '.' ∈ (Nat.repr ts).data ++ '-' :: n.data := by
      exact List.mem_append.mpr (Or.inr (List.mem_cons_of_mem _ hdot))
    have hbld := @beforeLastDot_append (Nat.repr ts).data n.data hdot
    have hald := @afterLastDot_append (Nat.repr ts).data n.data hdot
    have hbldne : beforeLastDot ((Nat.repr ts).data ++ '-' :: n.data) ≠ [] := by
      rw [hbld]
      simp
    have hext : extChars ((Nat.repr ts).data ++ '-' :: n.data)
        = '.' :: afterLastDot n.data := by
      rw [extChars, if_pos hdotc, if_neg (by simpa [List.isEmpty_iff] using hbldne), hald]
    have hdecomp := dot_decomp hdotc
    -- basename with the extension stripped
    have hstrip : stripSfx ((Nat.repr ts).data ++ '-' :: n.data)
        ('.' :: afterLastDot n.data)
        = beforeLastDot ((Nat.repr ts).data ++ '-' :: n.data) := by
      have hsfx : ('.' :: afterLastDot n.data).isSuffixOf
          ((Nat.repr ts).data ++ '-' :: n.data) = true := by
        rw [List.isSuffixOf_iff_suffix]
        exact ⟨beforeLastDot ((Nat.repr ts).data ++ '-' :: n.data), by rw [← hald, ← hdecomp]⟩
      have hlt : ('.' :: afterLastDot n.data).length
          < ((Nat.repr ts).data ++ '-' :: n.data).length := by
        conv_rhs => rw [hdecomp, hald]
        have hpos : 0 < (beforeLastDot ((Nat.repr ts).data ++ '-' :: n.data)).length :=
          List.length_pos.mpr hbldne
        simp only [List.length_append, List.length_cons]
        omega
      have hnecomb : ('.' :: afterLastDot n.data)
          ≠ ((Nat.repr ts).data ++ '-' :: n.data) :=
        fun heq => absurd (congrArg List.length heq) (Nat.ne_of_lt hlt)
      have hbeq : (('.' :: afterLastDot n.data)
          == ((Nat.repr ts).data ++ '-' :: n.data)) = false :=
        beq_eq_false_iff_ne.mpr hnecomb
      rw [stripSfx]
      rw [if_pos (by simp [hbeq, hsfx])]
      conv_lhs => rw [hdecomp]
      rw [← hald]
      have hlen2 : (beforeLastDot ((Nat.repr ts).data ++ '-' :: n.data)
            ++ '.' :: afterLastDot ((Nat.repr ts).data ++ '-' :: n.data)).length
          - ('.' :: afterLastDot ((Nat.repr ts).data ++ '-' :: n.data)).length
          = (beforeLastDot ((Nat.repr ts).data ++ '-' :: n.data)).length := by
        simp [List.length_append]
      rw [hlen2, List.take_left]
    show ((whisperTempDir tmp) ++ "/" ++
        (nodeBasename (mkTempFilePath tmp ts n) (nodeExtname (mkTempFilePath tmp ts n))
          ++ ".json")).data = _
    simp only [String.data_append, nodeBasename, nodeExtname, hbase]
    rw [hext, hstrip, hbld]
    simp [show ("/" : String).data = ['/'] from rfl, stemOfName, hdot]
  · -- no extension: the whole artifact basename is kept and .json appended
    have hdotc : ¬ '.' ∈ (Nat.repr ts).data ++ '-' :: n.data := by
      intro hc
      rcases List.mem_append.mp hc with h1 | h1
      · exact repr_no_dot ts h1
      · rcases List.mem_cons.mp h1 with h2 | h2
        · cases h2
        · exact hdot h2
    have hext : extChars ((Nat.repr ts).data ++ '-' :: n.data) = [] := by
      rw [extChars, if_neg hdotc]
    have hstrip : stripSfx ((Nat.repr ts).data ++ '-' :: n.data) [] =
        (Nat.repr ts).data ++ '-' :: n.data := by
      rw [stripSfx, if_neg (by simp)]
    show ((whisperTempDir tmp) ++ "/" ++
        (nodeBasename (mkTempFilePath tmp ts n) (nodeExtname (mkTempFilePath tmp ts n))
          ++ ".json")).data = _
    simp only [String.data_append, nodeBasename, nodeExtname, hbase]
    rw [hext]
    show ((whisperTempDir tmp).data ++ ("/" : String).data) ++
        ((⟨stripSfx ((Nat.repr ts).data ++ '-' :: n.data) []⟩ : String).data
          ++ (".json" : String).data) = _
    rw [hstrip]
    simp [show ("/" : String).data = ['/'] from rfl, stemOfName, hdot]

/-- Distinct uploaded filenames give distinct input artifact paths, whatever
the two timestamps are. -/
lemma mkTempFilePath_inj {tmp : String} {ts1 ts2 : Nat} {n1 n2 : String}
    (h : mkTempFilePath tmp ts1 n1 = mkTempFilePath tmp ts2 n2) : n1 = n2 := by
  have hd := congrArg String.data h
  rw [mkTempFilePath_data, mkTempFilePath_data] at hd
  have hd2 := List.append_cancel_left hd
  simp only [List.cons.injEq, true_and] at hd2
  have := append_sep_inj _ _ _ _ (repr_no_dash ts1) (repr_no_dash ts2) hd2
  exact String.ext this.2

/-- Equal output artifact paths force equal extension-stripped stems (for
slash-free uploaded filenames), whatever the two timestamps are. -/
lemma mkOutputJsonPath_inj {tmp : String} {ts1 ts2 : Nat} {n1 n2 : String}
    (h1 : ∀ c ∈ n1.data, ¬ c = '/') (h2 : ∀ c ∈ n2.data, ¬ c = '/')
    (h : mkOutputJsonPath tmp ts1 n1 = mkOutputJsonPath tmp ts2 n2) :
    stemOfName n1.data = stemOfName n2.data := by
  have hd := congrArg String.data h
  rw [mkOutputJsonPath_data tmp ts1 n1 h1, mkOutputJsonPath_data tmp ts2 n2 h2] at hd
  have hd2 := List.append_cancel_left hd
  simp only [List.cons.injEq, true_and] at hd2
  have h3 := append_sep_inj _ _ _ _ (repr_no_dash ts1) (repr_no_dash ts2) hd2
  exact List.append_cancel_right h3.2

/-- A concrete uploaded file used by the closed-instance theorems. -/
def mfA : MediaFile := ⟨"a.wav", "RIFFdata"⟩

/-- A concrete locator probe: only `python3` answers the version check. -/
def probeA : String → Bool := fun c => c == "python3"

/-- A concrete `JSON.parse` oracle: every document parses, to itself. -/
def parseA : String → Option String := fun s => some s

/-- A concrete baseline request environment: upload present, no diarization,
workspace available, `python3` found, script present, engine exits zero after
writing the output document. -/
def envA : Env :=
  { formDataOk := true
    mediaFile := some mfA
    diarizeField := none
    hfToken := none
    tmpdir := "/tmp"
    cwd := "/app"
    nowTs := 5
    tempDirExists := true
    mkdirOk := true
    writeOk := true
    probe := probeA
    scriptExists := true
    child := ⟨1000, 0, "out", ""⟩
    childOutput := some "DOC"
    readFails := false
    readPartialFails := false
    parseJson := parseA }

/-- The request environment that exhibits the token leak: diarization
requested, a credential token configured, and an engine failure with empty
captured streams. -/
def envLeak : Env :=
  { envA with
    diarizeField := some "true"
    hfToken := some "hf_SECRET_TOKEN"
    child := ⟨1000, 1, "", ""⟩
    childOutput := none }

/-- On the path that reaches `execPromise` (form data read, upload present,
workspace available, write succeeded, Python located, script present), the
`try` body is the pre-exec events followed by the exec phase, with both
artifact paths tracked for cleanup. -/
lemma POSTcore_exec_eq (env : Env) (fs : FS) (mf : MediaFile) (py : String)
    (hfd : env.formDataOk = true) (hmf : env.mediaFile = some mf)
    (hdir : env.tempDirExists = true) (hw : env.writeOk = true)
    (hpy : findPythonExecutable env.probe = some py) (hsc : env.scriptExists = true) :
    POSTcore env fs =
      ⟨(execPhase env (mkOutputJsonPath env.tmpdir env.nowTs mf.name)
          (mkCommand py (scriptPath env.cwd) (mkTempFilePath env.tmpdir env.nowTs mf.name)
            (mkOutputJsonPath env.tmpdir env.nowTs mf.name)
            (env.diarizeField == some "true") env.hfToken)
          (fsWrite fs (mkTempFilePath env.tmpdir env.nowTs mf.name) mf.content)).1,
       preEvs env py (mkTempFilePath env.tmpdir env.nowTs mf.name)
          (mkCommand py (scriptPath env.cwd) (mkTempFilePath env.tmpdir env.nowTs mf.name)
            (mkOutputJsonPath env.tmpdir env.nowTs mf.name)
            (env.diarizeField == some "true") env.hfToken)
        ++ (execPhase env (mkOutputJsonPath env.tmpdir env.nowTs mf.name)
          (mkCommand py (scriptPath env.cwd) (mkTempFilePath env.tmpdir env.nowTs mf.name)
            (mkOutputJsonPath env.tmpdir env.nowTs mf.name)
            (env.diarizeField == some "true") env.hfToken)
          (fsWrite fs (mkTempFilePath env.tmpdir env.nowTs mf.name) mf.content)).2.1,
       (execPhase env (mkOutputJsonPath env.tmpdir env.nowTs mf.name)
          (mkCommand py (scriptPath env.cwd) (mkTempFilePath env.tmpdir env.nowTs mf.name)
            (mkOutputJsonPath env.tmpdir env.nowTs mf.name)
            (env.diarizeField == some "true") env.hfToken)
          (fsWrite fs (mkTempFilePath env.tmpdir env.nowTs mf.name) mf.content)).2.2,
       some (mkTempFilePath env.tmpdir env.nowTs mf.name),
       some (mkOutputJsonPath env.tmpdir env.nowTs mf.name)⟩ := by
  simp [POSTcore, hfd, hmf, hdir, hw, hpy, hsc]

/-- A within-bounds zero-exit child makes `execPromise` resolve with its streams. -/
lemma runExec_ok (b : ChildBehavior) (cmd : String)
    (hdur : b.duration ≤ execOptions.timeout)
    (hso : b.stdout.length ≤ execOptions.maxBuffer)
    (hse : b.stderr.length ≤ execOptions.maxBuffer)
    (hexit : b.exitCode = 0) :
    runExec execOptions b cmd = .ok b.stdout b.stderr := by
  simp [runExec, Nat.not_lt.mpr hdur, Nat.not_lt.mpr hso, Nat.not_lt.mpr hse, hexit]

/-- The exec phase on the all-success path: zero exit, artifact written by the
child, readable, parseable. -/
lemma execPhase_success (env : Env) (oj cmd : String) (fs : FS) (s v : String)
    (hdur : env.child.duration ≤ execOptions.timeout)
    (hso : env.child.stdout.length ≤ execOptions.maxBuffer)
    (hse : env.child.stderr.length ≤ execOptions.maxBuffer)
    (hexit : env.child.exitCode = 0)
    (hout : env.childOutput = some s) (hread : env.readFails = false)
    (hparse : env.parseJson s = some v) :
    (execPhase env oj cmd fs).1 = ⟨200, none, none, some v⟩ := by
  have hrun := runExec_ok env.child cmd hdur hso hse hexit
  simp [execPhase, hrun, childFs, hout, hread, hparse, fsExists, fsWrite, fsRead]

/-- The exec phase when the child exits zero without writing the artifact
(workspace holding only the input artifact). -/
lemma execPhase_output_missing (env : Env) (oj cmd : String)
    (tf : String) (c0 : String)
    (hdur : env.child.duration ≤ execOptions.timeout)
    (hso : env.child.stdout.length ≤ execOptions.maxBuffer)
    (hse : env.child.stderr.length ≤ execOptions.maxBuffer)
    (hexit : env.child.exitCode = 0)
    (hout : env.childOutput = none)
    (hneq : ¬ oj = tf) :
    (execPhase env oj cmd (fsWrite [] tf c0)).1
      = ⟨500, some "Transcription failed: Output file not generated.",
         some (jsOr env.child.stderr env.child.stdout), none⟩ := by
  have hrun := runExec_ok env.child cmd hdur hso hse hexit
  have hbeq : (tf == oj) = false := beq_eq_false_iff_ne.mpr (fun h => hneq h.symm)
  simp [execPhase, hrun, childFs, hout, fsExists, fsWrite, hbeq]

/-- The exec phase on any `execPromise` rejection: 500 with the fixed error,
base details from captured streams or the message, partial output appended
exactly when the artifact exists and the recovery read succeeds. -/
lemma execPhase_failure (env : Env) (oj cmd : String) (tf c0 : String) (e : ExecErr)
    (hrun : runExec execOptions env.child cmd = .err e)
    (hneq : ¬ oj = tf) :
    (execPhase env oj cmd (fsWrite [] tf c0)).1.status = 500
    ∧ (execPhase env oj cmd (fsWrite [] tf c0)).1.error
        = some "Failed to execute transcription script."
    ∧ (∀ s, env.childOutput = some s → env.readPartialFails = false →
        (execPhase env oj cmd (fsWrite [] tf c0)).1.details
          = some (jsOr e.stderr (jsOr e.stdout (jsOr e.message "Unknown execution error"))
              ++ "\nPartial output: " ++ s))
    ∧ (env.childOutput = none →
        (execPhase env oj cmd (fsWrite [] tf c0)).1.details
          = some (jsOr e.stderr (jsOr e.stdout (jsOr e.message "Unknown execution error"))))
    ∧ (env.readPartialFails = true →
        (execPhase env oj cmd (fsWrite [] tf c0)).1.details
          = some (jsOr e.stderr (jsOr e.stdout (jsOr e.message "Unknown execution error")))) := by
  have hbeq : (tf == oj) = false := beq_eq_false_iff_ne.mpr (fun h => hneq h.symm)
  refine ⟨?_, ?_, ?_, ?_, ?_⟩
  · cases hco : env.childOutput with
    | none => simp [execPhase, hrun, childFs, hco, fsExists, fsWrite, hbeq]
    | some s => simp [execPhase, hrun, childFs, hco, fsExists, fsWrite, hbeq]
  · cases hco : env.childOutput with
    | none => simp [execPhase, hrun, childFs, hco, fsExists, fsWrite, hbeq]
    | some s => simp [execPhase, hrun, childFs, hco, fsExists, fsWrite, hbeq]
  · intro s hco hrp
    simp [execPhase, hrun, childFs, hco, hrp, fsExists, fsWrite, fsRead, hbeq]
  · intro hco
    simp [execPhase, hrun, childFs, hco, fsExists, fsWrite, hbeq]
  · intro hrp
    cases hco : env.childOutput with
    | none => simp [execPhase, hrun, childFs, hco, hrp, fsExists, fsWrite, hbeq]
    | some s => simp [execPhase, hrun, childFs, hco, hrp, fsExists, fsWrite, hbeq]

/-- Events of the `try` body survive into the full request trace. -/
lemma mem_POST_evs_of_core {env : Env} {fs : FS} {uIn uOut : Bool} {e : Ev}
    (h : e ∈ (POSTcore env fs).evs) : e ∈ (POST env uIn uOut fs).evs := by
  show e ∈ (POSTcore env fs).evs ++ _ ++ _
  exact List.mem_append_left _ (List.mem_append_left _ h)

/-- Whatever the oracles do, the exec phase responds with one of: success, the
output-missing error, the execution-failure error, or the outer-catch error. -/
lemma execPhase_error_cases (env : Env) (oj cmd : String) (fs : FS) :
    (execPhase env oj cmd fs).1.error = none
    ∨ (execPhase env oj cmd fs).1.error = some "Transcription failed: Output file not generated."
    ∨ (execPhase env oj cmd fs).1.error = some "Failed to execute transcription script."
    ∨ (execPhase env oj cmd fs).1.error = some "An unexpected error occurred." := by
  cases hrun : runExec execOptions env.child cmd with
  | err e =>
    right; right; left
    simp [execPhase, hrun]
  | ok o e =>
    cases hex : fsExists (childFs env oj fs) oj with
    | false =>
      right; left
      simp [execPhase, hrun, hex]
    | true =>
      cases hrf : env.readFails with
      | true =>
        right; right; right
        simp [execPhase, hrun, hex, hrf, catchResp]
      | false =>
        cases hp : env.parseJson ((fsRead (childFs env oj fs) oj).getD "") with
        | none =>
          right; right; right
          simp [execPhase, hrun, hex, hrf, hp, catchResp]
        | some v =>
          left
          simp [execPhase, hrun, hex, hrf, hp]

/-- The `try` body on the script-missing path: the 500 response is returned
after the input artifact was written, with both artifact paths tracked. -/
lemma POSTcore_noscript_eq (env : Env) (fs : FS) (mf : MediaFile) (py : String)
    (hfd : env.formDataOk = true) (hmf : env.mediaFile = some mf)
    (hdir : env.tempDirExists = true) (hw : env.writeOk = true)
    (hpy : findPythonExecutable env.probe = some py) (hsc : env.scriptExists = false) :
    POSTcore env fs =
      ⟨⟨500, some "Transcription script not found on server", none, none⟩,
       (if (env.diarizeField == some "true") && !(jsTruthy env.hfToken) then
          [Ev.log "Diarization requested, but HUGGING_FACE_TOKEN environment variable is not set."]
        else [])
        ++ [Ev.writeFile (mkTempFilePath env.tmpdir env.nowTs mf.name),
            Ev.log ("Temporary file saved to: " ++ mkTempFilePath env.tmpdir env.nowTs mf.name),
            Ev.log ("Found Python at: " ++ py),
            Ev.log ("Transcription script not found at: " ++ scriptPath env.cwd)],
       fsWrite fs (mkTempFilePath env.tmpdir env.nowTs mf.name) mf.content,
       some (mkTempFilePath env.tmpdir env.nowTs mf.name),
       some (mkOutputJsonPath env.tmpdir env.nowTs mf.name)⟩ := by
  simp [POSTcore, hfd, hmf, hdir, hw, hpy, hsc]

/-- Cleanup emits only unlink attempts and log lines, never a subprocess. -/
lemma cleanupStep_no_exec (p? : Option String) (b : Bool) (tag : String) (fs : FS)
    (c : String) (t m : Nat) : Ev.execCmd c t m ∉ (cleanupStep p? b tag fs).1 := by
  rcases p? with _ | p
  · simp [cleanupStep]
  · simp only [cleanupStep]
    split
    · split <;> simp
    · simp

/-- A filename whose quote characters break the argument boundary. -/
def injName : String := "x\" INJECTED \"y.wav"

/-- C3: the claim that caller-controlled filename content cannot break out of
its argument boundary is false on the code. For the uploaded filename
`x" INJECTED "y.wav`, the constructed command, interpreted under shell quoting
rules, contains the attacker-chosen word `INJECTED` as its own shell word and
the input path is no longer a single argument; a benign filename with spaces
shows the quoting working as intended for comparison. -/
theorem C3_quote_injection_shown :
    ("INJECTED" ∈ shellSplit (mkCommand "python3" (scriptPath "/app")
        (mkTempFilePath "/tmp" 1 injName) (mkOutputJsonPath "/tmp" 1 injName) false none))
    ∧ (mkTempFilePath "/tmp" 1 injName ∉ shellSplit (mkCommand "python3" (scriptPath "/app")
        (mkTempFilePath "/tmp" 1 injName) (mkOutputJsonPath "/tmp" 1 injName) false none))
    ∧ shellSplit (mkCommand "python3" (scriptPath "/app")
        (mkTempFilePath "/tmp" 1 "my song.wav") (mkOutputJsonPath "/tmp" 1 "my song.wav")
        false none)
      = ["python3", "/app/src/whisper/transcribe.py", "--input",
         "/tmp/whisper-uploads/1-my song.wav", "--output-json",
         "/tmp/whisper-uploads/1-my song.json"] := by decide

/-- C1: the claim that the credential token never reaches logs or the
client-visible response body is false on the code. With diarization requested,
a token configured, and the engine failing with empty captured streams, the
error `details` of the response fall back to the exec error's `message`, which
embeds the full command line including the token, and the
`Error executing Python script` log line carries the same message. -/
theorem C1_token_leak_shown :
    containsTok (((POST envLeak false false []).resp.details.getD "").data)
        "hf_SECRET_TOKEN".data = true
    ∧ (POST envLeak false false []).evs.any
        (fun e => match e with
          | Ev.log s => containsTok s.data "hf_SECRET_TOKEN".data
          | _ => false) = true := by decide

/-- C2: on every exit path, once the `try` body has finished, the input
artifact still present is unlink-attempted, so is the output artifact still
present after the input cleanup, and the response is identical whatever the
unlink outcomes are: cleanup failures never change a success into an error or
alter an error. -/
theorem C2_cleanup_always (env : Env) (fs : FS) (uIn uOut uIn2 uOut2 : Bool) :
    (POST env uIn uOut fs).resp = (POST env uIn2 uOut2 fs).resp
    ∧ (∀ p, (POSTcore env fs).tmpPath = some p →
        fsExists (POSTcore env fs).fs p = true →
        Ev.unlink p ∈ (POST env uIn uOut fs).evs)
    ∧ (∀ q, (POSTcore env fs).outPath = some q →
        fsExists (cleanupStep (POSTcore env fs).tmpPath uIn "input" (POSTcore env fs).fs).2 q
          = true →
        Ev.unlink q ∈ (POST env uIn uOut fs).evs) := by
  refine ⟨rfl, ?_, ?_⟩
  · intro p hp hex
    have hmem : Ev.unlink p
        ∈ (cleanupStep (POSTcore env fs).tmpPath uIn "input" (POSTcore env fs).fs).1 := by
      rw [hp]
      cases uIn <;> simp [cleanupStep, hex]
    show Ev.unlink p ∈ (POSTcore env fs).evs
        ++ (cleanupStep (POSTcore env fs).tmpPath uIn "input" (POSTcore env fs).fs).1
        ++ (cleanupStep (POSTcore env fs).outPath uOut "output"
              (cleanupStep (POSTcore env fs).tmpPath uIn "input" (POSTcore env fs).fs).2).1
    exact List.mem_append_left _ (List.mem_append_right _ hmem)
  · intro q hq hex
    have hmem : Ev.unlink q
        ∈ (cleanupStep (POSTcore env fs).outPath uOut "output"
            (cleanupStep (POSTcore env fs).tmpPath uIn "input" (POSTcore env fs).fs).2).1 := by
      set fs1 := (cleanupStep (POSTcore env fs).tmpPath uIn "input" (POSTcore env fs).fs).2
        with hfs1
      rw [hq]
      cases uOut <;> simp [cleanupStep, hex]
    show Ev.unlink q ∈ (POSTcore env fs).evs
        ++ (cleanupStep (POSTcore env fs).tmpPath uIn "input" (POSTcore env fs).fs).1
        ++ (cleanupStep (POSTcore env fs).outPath uOut "output"
              (cleanupStep (POSTcore env fs).tmpPath uIn "input" (POSTcore env fs).fs).2).1
    exact List.mem_append_right _ hmem

/-- Closed instance of the cleanup invariant: on the baseline success request
the response is independent of the unlink outcomes and the input artifact gets
an unlink attempt. -/
theorem C2_cleanup_always_witness :
    (POST envA true false []).resp = (POST envA false true []).resp
    ∧ Ev.unlink (mkTempFilePath "/tmp" 5 "a.wav") ∈ (POST envA true false []).evs :=
  ⟨(C2_cleanup_always envA [] true false false true).1,
   (C2_cleanup_always envA [] true false false true).2.1
     (mkTempFilePath "/tmp" 5 "a.wav") (by decide) (by decide)⟩

/-- C4: the engine subprocess is spawned with exactly the configured limits, a
10-minute wall-clock timeout and a 10-MiB captured-stream bound; under the
runner semantics a child exceeding the timeout yields a forcibly-terminated
(`killed`, SIGTERM) failure, while an in-bounds nonzero exit yields a
not-killed failure carrying the exit code — distinct classifications. -/
theorem C4_limits_and_timeout_classification (env : Env) (fs : FS) (uIn uOut : Bool)
    (mf : MediaFile) (py cmd : String) (b : ChildBehavior)
    (hfd : env.formDataOk = true) (hmf : env.mediaFile = some mf)
    (hdir : env.tempDirExists = true) (hw : env.writeOk = true)
    (hpy : findPythonExecutable env.probe = some py) (hsc : env.scriptExists = true) :
    Ev.execCmd (mkCommand py (scriptPath env.cwd) (mkTempFilePath env.tmpdir env.nowTs mf.name)
        (mkOutputJsonPath env.tmpdir env.nowTs mf.name) (env.diarizeField == some "true")
        env.hfToken) execOptions.timeout execOptions.maxBuffer ∈ (POST env uIn uOut fs).evs
    ∧ execOptions.timeout = 10 * 60 * 1000
    ∧ execOptions.maxBuffer = 10 * 1024 * 1024
    ∧ (execOptions.timeout < b.duration →
        runExec execOptions b cmd
          = .err ⟨b.stdout, b.stderr, "Command failed: " ++ cmd, true, none, some "SIGTERM"⟩)
    ∧ (b.duration ≤ execOptions.timeout → b.stdout.length ≤ execOptions.maxBuffer →
        b.stderr.length ≤ execOptions.maxBuffer → ¬ b.exitCode = 0 →
        runExec execOptions b cmd
          = .err ⟨b.stdout, b.stderr, "Command failed: " ++ cmd, false, some b.exitCode, none⟩) := by
  have hcoreevs : (POSTcore env fs).evs
      = preEvs env py (mkTempFilePath env.tmpdir env.nowTs mf.name)
          (mkCommand py (scriptPath env.cwd) (mkTempFilePath env.tmpdir env.nowTs mf.name)
            (mkOutputJsonPath env.tmpdir env.nowTs mf.name)
            (env.diarizeField == some "true") env.hfToken)
        ++ (execPhase env (mkOutputJsonPath env.tmpdir env.nowTs mf.name)
          (mkCommand py (scriptPath env.cwd) (mkTempFilePath env.tmpdir env.nowTs mf.name)
            (mkOutputJsonPath env.tmpdir env.nowTs mf.name)
            (env.diarizeField == some "true") env.hfToken)
          (fsWrite fs (mkTempFilePath env.tmpdir env.nowTs mf.name) mf.content)).2.1 := by
    rw [POSTcore_exec_eq env fs mf py hfd hmf hdir hw hpy hsc]
  refine ⟨?_, rfl, rfl, ?_, ?_⟩
  · apply mem_POST_evs_of_core
    rw [hcoreevs]
    apply List.mem_append_left
    simp [preEvs]
  · intro hlt
    simp [runExec, hlt]
  · intro h1 h2 h3 h4
    simp [runExec, Nat.not_lt.mpr h1, Nat.not_lt.mpr h2, Nat.not_lt.mpr h3, h4]

/-- Closed instance of the limit/classification theorem: the baseline request
spawns its command with the configured limits, and a 600001 ms child is
classified as a SIGTERM-killed timeout. -/
theorem C4_limits_and_timeout_classification_witness :
    Ev.execCmd (mkCommand "python3" (scriptPath envA.cwd)
        (mkTempFilePath envA.tmpdir envA.nowTs mfA.name)
        (mkOutputJsonPath envA.tmpdir envA.nowTs mfA.name)
        (envA.diarizeField == some "true") envA.hfToken)
        execOptions.timeout execOptions.maxBuffer ∈ (POST envA false false []).evs
    ∧ runExec execOptions ⟨600001, 0, "", ""⟩ "CMD"
        = .err ⟨"", "", "Command failed: CMD", true, none, some "SIGTERM"⟩ := by
  have h := C4_limits_and_timeout_classification envA [] false false mfA "python3" "CMD"
    ⟨600001, 0, "", ""⟩ rfl rfl rfl rfl (by decide) rfl
  exact ⟨h.1, h.2.2.2.1 (by decide)⟩

/-- C5: whenever the engine subprocess finishes in bounds with exit status
zero after writing a document to the expected output path, and the document
parses, the handler responds 200 with the parsed document, unmodified, under
`transcription`, and no error fields. -/
theorem C5_success_verbatim (env : Env) (fs : FS) (uIn uOut : Bool)
    (mf : MediaFile) (py s v : String)
    (hfd : env.formDataOk = true) (hmf : env.mediaFile = some mf)
    (hdir : env.tempDirExists = true) (hw : env.writeOk = true)
    (hpy : findPythonExecutable env.probe = some py) (hsc : env.scriptExists = true)
    (hdur : env.child.duration ≤ execOptions.timeout)
    (hso : env.child.stdout.length ≤ execOptions.maxBuffer)
    (hse : env.child.stderr.length ≤ execOptions.maxBuffer)
    (hexit : env.child.exitCode = 0)
    (hout : env.childOutput = some s) (hread : env.readFails = false)
    (hparse : env.parseJson s = some v) :
    (POST env uIn uOut fs).resp = ⟨200, none, none, some v⟩ := by
  have hcore : (POST env uIn uOut fs).resp = (POSTcore env fs).resp := rfl
  rw [hcore, POSTcore_exec_eq env fs mf py hfd hmf hdir hw hpy hsc]
  exact execPhase_success env _ _ _ s v hdur hso hse hexit hout hread hparse

/-- Closed instance of the success path: the baseline request answers 200 with
the engine's document under `transcription`. -/
theorem C5_success_verbatim_witness :
    (POST envA false false []).resp = ⟨200, none, none, some "DOC"⟩ :=
  C5_success_verbatim envA [] false false mfA "python3" "DOC" "DOC"
    rfl rfl rfl rfl (by decide) rfl (by decide) (by decide) (by decide) rfl rfl rfl rfl

/-- C6: when the in-bounds subprocess exits zero but no output artifact
exists (the child wrote nothing and the expected output path differs from the
input artifact), the handler answers 500 with the output-not-generated error
and the captured stderr, or stdout when stderr is empty, as `details`. -/
theorem C6_output_missing (env : Env) (uIn uOut : Bool) (mf : MediaFile) (py : String)
    (hfd : env.formDataOk = true) (hmf : env.mediaFile = some mf)
    (hdir : env.tempDirExists = true) (hw : env.writeOk = true)
    (hpy : findPythonExecutable env.probe = some py) (hsc : env.scriptExists = true)
    (hdur : env.child.duration ≤ execOptions.timeout)
    (hso : env.child.stdout.length ≤ execOptions.maxBuffer)
    (hse : env.child.stderr.length ≤ execOptions.maxBuffer)
    (hexit : env.child.exitCode = 0)
    (hout : env.childOutput = none)
    (hneq : ¬ mkOutputJsonPath env.tmpdir env.nowTs mf.name
        = mkTempFilePath env.tmpdir env.nowTs mf.name) :
    (POST env uIn uOut []).resp
      = ⟨500, some "Transcription failed: Output file not generated.",
         some (jsOr env.child.stderr env.child.stdout), none⟩ := by
  have hcore : (POST env uIn uOut []).resp = (POSTcore env []).resp := rfl
  rw [hcore, POSTcore_exec_eq env [] mf py hfd hmf hdir hw hpy hsc]
  exact execPhase_output_missing env _ _ _ mf.content hdur hso hse hexit hout hneq

/-- The baseline request with a child that writes no output artifact. -/
def envC6 : Env := { envA with childOutput := none }

/-- Closed instance of the output-missing path. -/
theorem C6_output_missing_witness :
    (POST envC6 false false []).resp
      = ⟨500, some "Transcription failed: Output file not generated.",
         some (jsOr envC6.child.stderr envC6.child.stdout), none⟩ :=
  C6_output_missing envC6 false false mfA "python3"
    rfl rfl rfl rfl (by decide) rfl (by decide) (by decide) (by decide) rfl rfl (by decide)

/-- C7: on any `execPromise` rejection (nonzero exit, timeout, or overflow),
the handler answers 500 with the execution-failure error; the `details` start
from the captured streams (or the error message); when the output artifact
exists and its recovery read succeeds, its raw content is appended; when the
artifact is absent no additional error appears; and a failing recovery read
leaves the original failure response with its captured streams. -/
theorem C7_failure_recovery_best_effort (env : Env) (uIn uOut : Bool)
    (mf : MediaFile) (py : String) (e : ExecErr)
    (hfd : env.formDataOk = true) (hmf : env.mediaFile = some mf)
    (hdir : env.tempDirExists = true) (hw : env.writeOk = true)
    (hpy : findPythonExecutable env.probe = some py) (hsc : env.scriptExists = true)
    (hrun : runExec execOptions env.child
        (mkCommand py (scriptPath env.cwd) (mkTempFilePath env.tmpdir env.nowTs mf.name)
          (mkOutputJsonPath env.tmpdir env.nowTs mf.name)
          (env.diarizeField == some "true") env.hfToken) = .err e)
    (hneq : ¬ mkOutputJsonPath env.tmpdir env.nowTs mf.name
        = mkTempFilePath env.tmpdir env.nowTs mf.name) :
    ((POST env uIn uOut []).resp.status = 500
      ∧ (POST env uIn uOut []).resp.error = some "Failed to execute transcription script.")
    ∧ (∀ s, env.childOutput = some s → env.readPartialFails = false →
        (POST env uIn uOut []).resp.details
          = some (jsOr e.stderr (jsOr e.stdout (jsOr e.message "Unknown execution error"))
              ++ "\nPartial output: " ++ s))
    ∧ (env.childOutput = none →
        (POST env uIn uOut []).resp.details
          = some (jsOr e.stderr (jsOr e.stdout (jsOr e.message "Unknown execution error"))))
    ∧ (env.readPartialFails = true →
        (POST env uIn uOut []).resp.details
          = some (jsOr e.stderr (jsOr e.stdout (jsOr e.message "Unknown execution error")))) := by
  have hresp : (POST env uIn uOut []).resp
      = (execPhase env (mkOutputJsonPath env.tmpdir env.nowTs mf.name)
          (mkCommand py (scriptPath env.cwd) (mkTempFilePath env.tmpdir env.nowTs mf.name)
            (mkOutputJsonPath env.tmpdir env.nowTs mf.name)
            (env.diarizeField == some "true") env.hfToken)
          (fsWrite [] (mkTempFilePath env.tmpdir env.nowTs mf.name) mf.content)).1 := by
    show (POSTcore env []).resp = _
    rw [POSTcore_exec_eq env [] mf py hfd hmf hdir hw hpy hsc]
  obtain ⟨ha, hb, hc, hd, he'⟩ := execPhase_failure env
    (mkOutputJsonPath env.tmpdir env.nowTs mf.name)
    (mkCommand py (scriptPath env.cwd) (mkTempFilePath env.tmpdir env.nowTs mf.name)
      (mkOutputJsonPath env.tmpdir env.nowTs mf.name)
      (env.diarizeField == some "true") env.hfToken)
    (mkTempFilePath env.tmpdir env.nowTs mf.name) mf.content e hrun hneq
  rw [hresp]
  exact ⟨⟨ha, hb⟩, hc, hd, he'⟩

/-- The baseline request with a nonzero-exit child that wrote partial output. -/
def envC7 : Env := { envA with child := ⟨1000, 1, "o", "e"⟩, childOutput := some "PARTIAL" }

/-- The command the C7 instance spawns. -/
def cmdC7 : String := mkCommand "python3" (scriptPath "/app")
  (mkTempFilePath "/tmp" 5 "a.wav") (mkOutputJsonPath "/tmp" 5 "a.wav") false none

set_option maxRecDepth 4096 in
/-- Closed instance of failure recovery: nonzero exit with captured streams
and partial output appended to the details. -/
theorem C7_failure_recovery_best_effort_witness :
    ((POST envC7 false false []).resp.status = 500
      ∧ (POST envC7 false false []).resp.error = some "Failed to execute transcription script.")
    ∧ (POST envC7 false false []).resp.details
        = some (jsOr "e" (jsOr "o" (jsOr ("Command failed: " ++ cmdC7)
            "Unknown execution error")) ++ "\nPartial output: " ++ "PARTIAL") := by
  have h := C7_failure_recovery_best_effort envC7 false false mfA "python3"
    ⟨"o", "e", "Command failed: " ++ cmdC7, false, some 1, none⟩
    rfl rfl rfl rfl (by decide) rfl (by decide) (by decide)
  exact ⟨h.1, h.2.1 "PARTIAL" rfl rfl⟩

/-- C8: the claim that output artifact paths are distinct for distinct
uploaded filenames is false on the code: two distinct filenames differing only
in their extension map to the same output artifact path at the same
timestamp (the extension is replaced by `.json`). -/
theorem C8_naming_cex :
    mkOutputJsonPath "/tmp" 5 "a.wav" = mkOutputJsonPath "/tmp" 5 "a.mp3"
    ∧ ("a.wav" : String) ≠ "a.mp3" := by decide

/-- C8 (amended): for any two jobs and any timestamps, distinct uploaded
filenames always give distinct input artifact paths; and the output artifact
paths are distinct whenever the extension-stripped stems of the (slash-free)
filenames differ — filenames differing only in their extension may collide. -/
theorem C8_naming_amended (tmp : String) (ts1 ts2 : Nat) (n1 n2 : String)
    (h1 : ∀ c ∈ n1.data, ¬ c = '/') (h2 : ∀ c ∈ n2.data, ¬ c = '/') :
    (¬ n1 = n2 → ¬ mkTempFilePath tmp ts1 n1 = mkTempFilePath tmp ts2 n2)
    ∧ (¬ stemOfName n1.data = stemOfName n2.data →
        ¬ mkOutputJsonPath tmp ts1 n1 = mkOutputJsonPath tmp ts2 n2) :=
  ⟨fun hne h => hne (mkTempFilePath_inj h),
   fun hne h => hne (mkOutputJsonPath_inj h1 h2 h)⟩

/-- Closed instance of the amended naming property: distinct filenames give
distinct input paths across timestamps, and distinct stems give distinct
output paths. -/
theorem C8_naming_amended_witness :
    ¬ mkTempFilePath "/tmp" 5 "a.wav" = mkTempFilePath "/tmp" 6 "b.wav"
    ∧ ¬ mkOutputJsonPath "/tmp" 5 "a.wav" = mkOutputJsonPath "/tmp" 6 "b.flac" :=
  ⟨(C8_naming_amended "/tmp" 5 6 "a.wav" "b.wav" (by decide) (by decide)).1 (by decide),
   (C8_naming_amended "/tmp" 5 6 "a.wav" "b.flac" (by decide) (by decide)).2 (by decide)⟩

/-- C9: with diarization requested and no token in the environment, the
command is still built and spawned with the `--diarize` flag and no token
argument, both degradation warnings are logged, and the response's error, if
any, is one of the execution-path errors — never a token-configuration
failure. -/
theorem C9_degraded_mode (env : Env) (fs : FS) (uIn uOut : Bool) (mf : MediaFile) (py : String)
    (hfd : env.formDataOk = true) (hmf : env.mediaFile = some mf)
    (hdir : env.tempDirExists = true) (hw : env.writeOk = true)
    (hpy : findPythonExecutable env.probe = some py) (hsc : env.scriptExists = true)
    (hdi : env.diarizeField = some "true") (htok : env.hfToken = none) :
    commandParts py (scriptPath env.cwd) (mkTempFilePath env.tmpdir env.nowTs mf.name)
        (mkOutputJsonPath env.tmpdir env.nowTs mf.name) true none
      = [quoteArg py, quoteArg (scriptPath env.cwd),
         "--input " ++ quoteArg (mkTempFilePath env.tmpdir env.nowTs mf.name),
         "--output-json " ++ quoteArg (mkOutputJsonPath env.tmpdir env.nowTs mf.name),
         "--diarize"]
    ∧ Ev.execCmd (mkCommand py (scriptPath env.cwd) (mkTempFilePath env.tmpdir env.nowTs mf.name)
        (mkOutputJsonPath env.tmpdir env.nowTs mf.name) true none)
        execOptions.timeout execOptions.maxBuffer ∈ (POST env uIn uOut fs).evs
    ∧ Ev.log "Diarization requested, but HUGGING_FACE_TOKEN environment variable is not set."
        ∈ (POST env uIn uOut fs).evs
    ∧ Ev.log "Proceeding with diarization request but without HF token."
        ∈ (POST env uIn uOut fs).evs
    ∧ ((POST env uIn uOut fs).resp.error = none
      ∨ (POST env uIn uOut fs).resp.error
          = some "Transcription failed: Output file not generated."
      ∨ (POST env uIn uOut fs).resp.error
          = some "Failed to execute transcription script."
      ∨ (POST env uIn uOut fs).resp.error = some "An unexpected error occurred.") := by
  have hb : (env.diarizeField == some "true") = true := by simp [hdi]
  have hcoreevs : (POSTcore env fs).evs
      = preEvs env py (mkTempFilePath env.tmpdir env.nowTs mf.name)
          (mkCommand py (scriptPath env.cwd) (mkTempFilePath env.tmpdir env.nowTs mf.name)
            (mkOutputJsonPath env.tmpdir env.nowTs mf.name) true none)
        ++ (execPhase env (mkOutputJsonPath env.tmpdir env.nowTs mf.name)
          (mkCommand py (scriptPath env.cwd) (mkTempFilePath env.tmpdir env.nowTs mf.name)
            (mkOutputJsonPath env.tmpdir env.nowTs mf.name) true none)
          (fsWrite fs (mkTempFilePath env.tmpdir env.nowTs mf.name) mf.content)).2.1 := by
    have h := POSTcore_exec_eq env fs mf py hfd hmf hdir hw hpy hsc
    rw [hb, htok] at h
    rw [h]
  have hresp : (POST env uIn uOut fs).resp
      = (execPhase env (mkOutputJsonPath env.tmpdir env.nowTs mf.name)
          (mkCommand py (scriptPath env.cwd) (mkTempFilePath env.tmpdir env.nowTs mf.name)
            (mkOutputJsonPath env.tmpdir env.nowTs mf.name) true none)
          (fsWrite fs (mkTempFilePath env.tmpdir env.nowTs mf.name) mf.content)).1 := by
    have h := POSTcore_exec_eq env fs mf py hfd hmf hdir hw hpy hsc
    rw [hb, htok] at h
    show (POSTcore env fs).resp = _
    rw [h]
  refine ⟨?_, ?_, ?_, ?_, ?_⟩
  · simp [commandParts, jsTruthy]
  · apply mem_POST_evs_of_core
    rw [hcoreevs]
    apply List.mem_append_left
    simp [preEvs]
  · apply mem_POST_evs_of_core
    rw [hcoreevs]
    apply List.mem_append_left
    simp [preEvs, hdi, htok, jsTruthy]
  · apply mem_POST_evs_of_core
    rw [hcoreevs]
    apply List.mem_append_left
    simp [preEvs, hdi, htok, jsTruthy]
  · rw [hresp]
    exact execPhase_error_cases env _ _ _

/-- The baseline request with diarization requested and no token configured. -/
def envDeg : Env := { envA with diarizeField := some "true" }

/-- Closed instance of degraded mode: the missing-token warning is logged and
the engine subprocess is still spawned with the diarization flag. -/
theorem C9_degraded_mode_witness :
    Ev.log "Proceeding with diarization request but without HF token."
      ∈ (POST envDeg false false []).evs
    ∧ Ev.execCmd (mkCommand "python3" (scriptPath envDeg.cwd)
        (mkTempFilePath envDeg.tmpdir envDeg.nowTs mfA.name)
        (mkOutputJsonPath envDeg.tmpdir envDeg.nowTs mfA.name) true none)
        execOptions.timeout execOptions.maxBuffer ∈ (POST envDeg false false []).evs := by
  have h := C9_degraded_mode envDeg [] false false mfA "python3"
    rfl rfl rfl rfl (by decide) rfl rfl rfl
  exact ⟨h.2.2.2.1, h.2.1⟩

/-- C10: if the worker script is missing at its fixed path (and the request
reached that check: upload present, workspace writable, Python located), the
handler answers 500 with the script-not-found error and no details field,
never spawns the engine subprocess, and the already-written input artifact
still receives its cleanup unlink attempt. -/
theorem C10_script_missing (env : Env) (fs : FS) (uIn uOut : Bool)
    (mf : MediaFile) (py : String)
    (hfd : env.formDataOk = true) (hmf : env.mediaFile = some mf)
    (hdir : env.tempDirExists = true) (hw : env.writeOk = true)
    (hpy : findPythonExecutable env.probe = some py) (hsc : env.scriptExists = false) :
    (POST env uIn uOut fs).resp
      = ⟨500, some "Transcription script not found on server", none, none⟩
    ∧ (∀ c t m, Ev.execCmd c t m ∉ (POST env uIn uOut fs).evs)
    ∧ Ev.unlink (mkTempFilePath env.tmpdir env.nowTs mf.name) ∈ (POST env uIn uOut fs).evs := by
  have hcore := POSTcore_noscript_eq env fs mf py hfd hmf hdir hw hpy hsc
  refine ⟨?_, ?_, ?_⟩
  · show (POSTcore env fs).resp = _
    rw [hcore]
  · intro c t m hmem
    have hevs : (POST env uIn uOut fs).evs = (POSTcore env fs).evs
        ++ (cleanupStep (POSTcore env fs).tmpPath uIn "input" (POSTcore env fs).fs).1
        ++ (cleanupStep (POSTcore env fs).outPath uOut "output"
              (cleanupStep (POSTcore env fs).tmpPath uIn "input" (POSTcore env fs).fs).2).1 := rfl
    rw [hevs] at hmem
    rcases List.mem_append.mp hmem with h1 | h2
    · rcases List.mem_append.mp h1 with h3 | h4
      · rw [hcore] at h3
        rcases List.mem_append.mp h3 with h5 | h6
        · by_cases hcond : ((env.diarizeField == some "true") && !(jsTruthy env.hfToken)) = true
          · simp [hcond] at h5
          · simp [hcond] at h5
        · simp at h6
      · exact cleanupStep_no_exec _ _ _ _ _ _ _ h4
    · exact cleanupStep_no_exec _ _ _ _ _ _ _ h2
  · have hex : fsExists (POSTcore env fs).fs (mkTempFilePath env.tmpdir env.nowTs mf.name)
        = true := by
      rw [hcore]
      simp [fsExists, fsWrite]
    have htp : (POSTcore env fs).tmpPath
        = some (mkTempFilePath env.tmpdir env.nowTs mf.name) := by
      rw [hcore]
    have hmem : Ev.unlink (mkTempFilePath env.tmpdir env.nowTs mf.name)
        ∈ (cleanupStep (POSTcore env fs).tmpPath uIn "input" (POSTcore env fs).fs).1 := by
      rw [htp]
      cases uIn <;> simp [cleanupStep, hex]
    show Ev.unlink _ ∈ (POSTcore env fs).evs
        ++ (cleanupStep (POSTcore env fs).tmpPath uIn "input" (POSTcore env fs).fs).1
        ++ (cleanupStep (POSTcore env fs).outPath uOut "output"
              (cleanupStep (POSTcore env fs).tmpPath uIn "input" (POSTcore env fs).fs).2).1
    exact List.mem_append_left _ (List.mem_append_right _ hmem)

/-- The baseline request on a host without the worker script. -/
def envNoScript : Env := { envA with scriptExists := false }

/-- Closed instance of the script-missing path: 500 with the dedicated error
and the input artifact still unlinked. -/
theorem C10_script_missing_witness :
    (POST envNoScript false false []).resp
      = ⟨500, some "Transcription script not found on server", none, none⟩
    ∧ Ev.unlink (mkTempFilePath "/tmp" 5 "a.wav") ∈ (POST envNoScript false false []).evs := by
  have h := C10_script_missing envNoScript [] false false mfA "python3"
    rfl rfl rfl rfl (by decide) rfl
  exact ⟨h.1, h.2.2⟩
